import Mathlib

/-!
Verification development for the `reclaim_locked_fees` repository.

The repository scans a Solana wallet for reclaimable rent-holding accounts
(`src/unnamed/part_000`, the detection logic), lets the user select a subset,
and builds, submits and confirms a closing transaction with a 15% fee skim
(`src/src/app/page.tsx`).

This file gives a shallow embedding of that code:
* the discovery/classification/deduplication pipeline `detectReclaimableAccounts`
  together with `filterSignificantAccounts` and the totalizer;
* the transaction builder of `reclaimSOL` in `page.tsx`, including an exact
  integer model of the JavaScript double-precision computation
  `Math.floor(totalLamports * 0.15)` and of the byte-level fee-transfer data;
* the 60-attempt confirmation polling loop;
* the base58 address validation `isValidSolanaAddress`.

RPC queries are modelled as explicit inputs (`Conn`): each field holds either
the list of records the query returned or the error it threw.
-/

namespace Reclaim

/-! ## Data model (from `src/unnamed/part_000` and `src/src/app/page.tsx`) -/

/-- `TOKEN_PROGRAM_ID` from `@solana/spl-token`, as its base58 string. -/
def TOKEN_PROGRAM_ID : String := "TokenkegQfeZyiNwAJbNbGKPFXCWuBvf9Ss623VQ5DA"

/-- The associated-token program id hard-coded in `detectReclaimableAccounts`. -/
def ASSOCIATED_TOKEN_PROGRAM_ID : String :=
  "ATokenGPvbdGVqstVQmcLsNZAqeEbtQaMy63xtto2CXv"

/-- The Metaplex metadata program id string compared against in strategy D. -/
def METAPLEX_PROGRAM_ID : String := "metaqbxxUerdq28cj1RbAqWwTRiWLMsqLoea1PgurZ"

/-- The system program id used for the fee transfer in `reclaimSOL`. -/
def SYSTEM_PROGRAM_ID : String := "11111111111111111111111111111111"

/-- The `tokenAmount` object of a parsed token account; the code reads only
`tokenAmount.amount`, an arbitrary-precision decimal string. -/
structure TokenAmountInfo where
  amount : String
deriving DecidableEq

/-- The `data.parsed.info` object of a parsed token account, with the two
fields the detection code reads: `tokenAmount` and `decimals`. -/
structure ParsedAccountInfo where
  tokenAmount : TokenAmountInfo
  decimals : Nat
deriving DecidableEq

/-- One element of `getParsedTokenAccountsByOwner(...).value`: pubkey plus
the account fields the code copies, and the parsed info. -/
structure ParsedTokenAccount where
  pubkey : String
  lamports : Nat
  owner : String
  executable : Bool
  rentEpoch : Nat
  parsed : ParsedAccountInfo
deriving DecidableEq

/-- One element of a `getProgramAccounts` response. -/
structure RawAccount where
  pubkey : String
  lamports : Nat
  owner : String
  executable : Bool
  rentEpoch : Nat
deriving DecidableEq

/-- The `getAccountInfo` response for the wallet itself (step 5 of the scan,
whose body is empty in the source). -/
structure AccountInfoRec where
  lamports : Nat
  executable : Bool
deriving DecidableEq

/-- The `type` tag of an `EmptyAccount`:
`'token' | 'nft' | 'associated-token' | 'metadata' | 'other' | 'unknown'`. -/
inductive AccountType where
  | token
  | nft
  | associatedToken
  | metadata
  | other
  | unknown
deriving DecidableEq

/-- The `EmptyAccount` record produced by `detectReclaimableAccounts`. -/
structure EmptyAccount where
  address : String
  lamports : Nat
  owner : String
  executable : Bool
  rentEpoch : Nat
  type : AccountType
  programId : String
deriving DecidableEq

/-! ## Discovery strategies (`detectReclaimableAccounts`) -/

/-- The repeated check `reclaimableAccounts.some(a => a.address.equals(pk))`. -/
def isAlreadyIncluded (acc : List EmptyAccount) (pk : String) : Bool :=
  acc.any (fun a => a.address == pk)

/-- The `EmptyAccount` pushed by strategy A (`type: 'token'`,
`programId: TOKEN_PROGRAM_ID.toBase58()`). -/
def tokenEntry (a : ParsedTokenAccount) : EmptyAccount :=
  { address := a.pubkey, lamports := a.lamports, owner := a.owner,
    executable := a.executable, rentEpoch := a.rentEpoch,
    type := AccountType.token, programId := TOKEN_PROGRAM_ID }

/-- The `EmptyAccount` pushed by strategy B (`type: 'nft'`,
`programId: account.account.owner.toBase58()`). -/
def nftEntry (a : ParsedTokenAccount) : EmptyAccount :=
  { address := a.pubkey, lamports := a.lamports, owner := a.owner,
    executable := a.executable, rentEpoch := a.rentEpoch,
    type := AccountType.nft, programId := a.owner }

/-- The `EmptyAccount` pushed by strategy C (`type: 'associated-token'`). -/
def ataEntry (a : RawAccount) : EmptyAccount :=
  { address := a.pubkey, lamports := a.lamports, owner := a.owner,
    executable := a.executable, rentEpoch := a.rentEpoch,
    type := AccountType.associatedToken, programId := a.owner }

/-- The `EmptyAccount` pushed by strategy D: the literal `type: "unknown"`
from line 209 of the source. -/
def unknownEntry (a : RawAccount) : EmptyAccount :=
  { address := a.pubkey, lamports := a.lamports, owner := a.owner,
    executable := a.executable, rentEpoch := a.rentEpoch,
    type := AccountType.unknown, programId := a.owner }

/-- Strategy A loop body: every parsed token account whose
`tokenAmount.amount === '0'` is pushed as `token`, with no dedup check. -/
def tokenStep (acc : List EmptyAccount) (a : ParsedTokenAccount) :
    List EmptyAccount :=
  if a.parsed.tokenAmount.amount == "0" then acc ++ [tokenEntry a] else acc

/-- Strategy B loop body: amount `'0'` and `decimals === 0`, pushed as `nft`
only when the address is not already included. -/
def nftStep (acc : List EmptyAccount) (a : ParsedTokenAccount) :
    List EmptyAccount :=
  if a.parsed.tokenAmount.amount == "0" && a.parsed.decimals == 0 then
    if isAlreadyIncluded acc a.pubkey then acc
    else acc ++ [nftEntry a]
  else acc

/-- Strategy C loop body: program accounts of the associated-token program
with positive lamports, pushed as `associated-token` when not already
included. -/
def ataStep (acc : List EmptyAccount) (a : RawAccount) : List EmptyAccount :=
  if a.lamports > 0 then
    if isAlreadyIncluded acc a.pubkey then acc
    else acc ++ [ataEntry a]
  else acc

/-- The `type` value computed by the if/else chain in strategy D
(`let type = 'unknown'; if (programId === ...) type = ...`).  The source
computes this and then pushes the literal `"unknown"` instead, leaving the
computed value unused. -/
def strategyDComputedType (programId : String) : AccountType :=
  if programId == TOKEN_PROGRAM_ID then AccountType.token
  else if programId == ASSOCIATED_TOKEN_PROGRAM_ID then AccountType.associatedToken
  else if programId == METAPLEX_PROGRAM_ID then AccountType.metadata
  else AccountType.unknown

/-- Strategy D loop body: any program account not already included with
positive lamports is pushed; the pushed `type` is the literal `"unknown"`
from line 209 of the source, not `strategyDComputedType`. -/
def allProgramsStep (acc : List EmptyAccount) (a : RawAccount) :
    List EmptyAccount :=
  if !isAlreadyIncluded acc a.pubkey && a.lamports > 0 then
    acc ++ [unknownEntry a]
  else acc

/-- The pure part of `detectReclaimableAccounts`, once every RPC query has
returned: the four strategy loops run in source order over the shared
`reclaimableAccounts` array.  Step 5 (`getAccountInfo` on the wallet) has an
empty body in the source, so `walletInfo` is ignored. -/
def detectCore (tokenAccounts nftAccounts : List ParsedTokenAccount)
    (ataAccounts : List RawAccount) (_walletInfo : Option AccountInfoRec)
    (allProgramAccounts : List RawAccount) : List EmptyAccount :=
  let acc1 := tokenAccounts.foldl tokenStep []
  let acc2 := nftAccounts.foldl nftStep acc1
  let acc3 := ataAccounts.foldl ataStep acc2
  allProgramAccounts.foldl allProgramsStep acc3

/-- The RPC responses consumed by one run of `detectReclaimableAccounts`, in
call order.  Each field is the returned list or the thrown error. -/
structure Conn where
  tokenAccounts : Except String (List ParsedTokenAccount)
  nftAccounts : Except String (List ParsedTokenAccount)
  ataAccounts : Except String (List RawAccount)
  walletInfo : Except String (Option AccountInfoRec)
  allProgramAccounts : Except String (List RawAccount)

/-- `detectReclaimableAccounts`: the whole body sits inside a single
`try { ... } catch (error) { ...; throw error; }`, so the first query that
throws aborts the scan and the error is re-thrown; only when every query
succeeds is the accumulated list returned. -/
def detectReclaimableAccounts (c : Conn) : Except String (List EmptyAccount) := do
  let t ← c.tokenAccounts
  let n ← c.nftAccounts
  let a ← c.ataAccounts
  let w ← c.walletInfo
  let p ← c.allProgramAccounts
  pure (detectCore t n a w p)

/-- `filterSignificantAccounts` from the detection module. -/
def filterSignificantAccounts (accounts : List EmptyAccount)
    (minLamports : Nat := 2000) : List EmptyAccount :=
  accounts.filter (fun a => a.lamports ≥ minLamports)

/-- The `totalLamports` part of `calculateTotalReclaim` (the `totalSOL` field
divides by `1e9` for display only). -/
def calculateTotalReclaimLamports (accounts : List EmptyAccount) : Nat :=
  accounts.foldl (fun sum a => sum + a.lamports) 0

/-! ## Fee computation (`reclaimSOL` in `src/src/app/page.tsx`)

`const feeLamports = Math.floor(totalLamports * 0.15)` runs in JavaScript
double precision.  The literal `0.15` denotes the binary64 value
`5404319552844595 / 2^55` (the nearest double to 3/20), and the product is
the correctly rounded (round-to-nearest, ties-to-even) double closest to
`totalLamports * (5404319552844595 / 2^55)`.  The model below computes that
double exactly, scaled by `2^55`, for every `totalLamports` below `2^53`
(the range in which `totalLamports` itself is an exact double). -/

/-- Significand of the binary64 literal `0.15`: the double is
`float015Num / 2^55`. -/
def float015Num : Nat := 5404319552844595

/-- Round `a / d` to the nearest integer, ties to even — the IEEE-754
default rounding used by the JavaScript multiplication. -/
def roundHalfEven (a d : Nat) : Nat :=
  let q := a / d
  let r := a % d
  if 2 * r < d then q
  else if d < 2 * r then q + 1
  else if q % 2 = 0 then q else q + 1

/-- Floor of the base-2 logarithm, by fuelled structural recursion (exact
whenever the argument is below `2 ^ fuel`). -/
def log2Fuel : Nat → Nat → Nat
  | 0, _ => 0
  | fuel + 1, n => if n < 2 then 0 else log2Fuel fuel (n / 2) + 1

/-- The double `n * 0.15` of JavaScript, scaled by `2^55`: the exact product
`n * float015Num` is rounded onto the binary64 grid of its binade
(spacing `2^(log2 - 52)` in scaled units).  Exact for `n < 2^53`; the fuel
`128` covers every scaled product below `2^128`. -/
def jsMul015Scaled (n : Nat) : Nat :=
  if n = 0 then 0
  else
    let a := n * float015Num
    let g := log2Fuel 128 a - 52
    roundHalfEven a (2 ^ g) * 2 ^ g

/-- `feeLamports = Math.floor(totalLamports * 0.15)` from `reclaimSOL`. -/
def feeLamports (totalLamports : Nat) : Nat :=
  jsMul015Scaled totalLamports / 2 ^ 55

/-- `totalLamports - feeLamports`, the integer net amount behind the
`netTotal` display value of `reclaimSOL`. -/
def netLamports (totalLamports : Nat) : Nat :=
  totalLamports - feeLamports totalLamports

/-- The mathematically exact `floor(totalLamports * 15 / 100)` that §4.5 of
the spec prescribes; stated from the spec's words for comparison with the
source's `feeLamports`. -/
def feeLamportsSpec (totalLamports : Nat) : Nat :=
  totalLamports * 15 / 100

/-! ## Fee-transfer instruction data (`reclaimSOL`) -/

/-- `Buffer.writeUInt32LE(value, offset)`: bytes `offset .. offset+3` become
the little-endian bytes of `value` (which the library requires to be below
`2^32`, as both call sites guarantee), other bytes are unchanged. -/
def writeUInt32LE (buf : List Nat) (value offset : Nat) : List Nat :=
  buf.take offset ++
    [value % 256, value / 256 % 256, value / 65536 % 256, value / 16777216 % 256] ++
    buf.drop (offset + 4)

/-- JavaScript `>>> 0` on a non-negative integer-valued double: reduction
modulo `2^32`. -/
def jsToUint32 (n : Nat) : Nat := n % 2 ^ 32

/-- The 8-byte `feeBuffer`: `Buffer.alloc(8)` then
`writeUInt32LE(feeLamports >>> 0, 0)` and
`writeUInt32LE(Math.floor(feeLamports / 0x100000000), 4)` (exact natural
division — for `fee < 2^53` the JavaScript division by `2^32` and `floor`
are exact). -/
def feeBuffer (fee : Nat) : List Nat :=
  writeUInt32LE (writeUInt32LE (List.replicate 8 0) (jsToUint32 fee) 0)
    (fee / 4294967296) 4

/-- The instruction data `Buffer.concat([Buffer.from([2, 0, 0, 0]), feeBuffer])`. -/
def feeTransferData (fee : Nat) : List Nat :=
  [2, 0, 0, 0] ++ feeBuffer fee

/-- The exact 64-bit little-endian encoding of `n`, byte `i` being
`n / 2^(8*i) mod 256`. -/
def le64 (n : Nat) : List Nat :=
  [n % 256, n / 2 ^ 8 % 256, n / 2 ^ 16 % 256, n / 2 ^ 24 % 256,
   n / 2 ^ 32 % 256, n / 2 ^ 40 % 256, n / 2 ^ 48 % 256, n / 2 ^ 56 % 256]

/-! ## Transaction builder (`reclaimSOL`) -/

/-- One entry of an instruction's `keys` array. -/
structure AccountMeta where
  pubkey : String
  isSigner : Bool
  isWritable : Bool
deriving DecidableEq

/-- An instruction of the reclaim transaction: either
`createCloseAccountInstruction(account, destination, authority)` from
`@solana/spl-token`, or a raw `{keys, programId, data}` object as pushed for
the fee transfer. -/
inductive Instruction where
  | closeAccount (account destination authority : String)
  | raw (keys : List AccountMeta) (programId : String) (data : List Nat)
deriving DecidableEq

/-- `totalLamports = selectedAccountPubkeys.reduce((sum, a) => sum + a.lamports, 0)`. -/
def totalLamportsOf (selected : List EmptyAccount) : Nat :=
  selected.foldl (fun sum a => sum + a.lamports) 0

/-- The raw fee-transfer instruction pushed at the end of `reclaimSOL`'s
instruction array: owner signs and is writable, recipient is writable,
program is the system program, and the data carries tag `2` and the fee. -/
def feeTransferInstruction (wallet feeRecipient : String) (fee : Nat) :
    Instruction :=
  Instruction.raw
    [{ pubkey := wallet, isSigner := true, isWritable := true },
     { pubkey := feeRecipient, isSigner := false, isWritable := true }]
    SYSTEM_PROGRAM_ID (feeTransferData fee)

/-- The instruction-building part of `reclaimSOL`: the guard
`selectedAccounts.size === 0` rejects an empty selection; otherwise the
accounts whose address is in the selection are kept in display order, a
close-account instruction (destination = wallet, authority = wallet) is
pushed per account, and the fee transfer is pushed last. -/
def buildReclaimInstructions (accounts : List EmptyAccount)
    (selectedAccounts : List String) (wallet feeRecipient : String) :
    Except String (List Instruction) :=
  if selectedAccounts.isEmpty then
    Except.error "Please select at least one account"
  else
    let selectedAccountPubkeys :=
      accounts.filter (fun a => selectedAccounts.contains a.address)
    let totalLamports := totalLamportsOf selectedAccountPubkeys
    let fee := feeLamports totalLamports
    let instructions := selectedAccountPubkeys.foldl
      (fun ixs account =>
        ixs ++ [Instruction.closeAccount account.address wallet wallet]) []
    Except.ok (instructions ++ [feeTransferInstruction wallet feeRecipient fee])

/-! ## Confirmation polling loop (`reclaimSOL`, lines 254-280) -/

/-- The `confirmationStatus` values of `getSignatureStatus`. -/
inductive ConfStatus where
  | processed
  | confirmed
  | finalized
deriving DecidableEq

/-- One poll response: `Except.error` models a thrown RPC error (swallowed
by the inner `try/catch`), `Except.ok none` a response whose `value` is
`null`, `Except.ok (some s)` a status report. -/
def PollResponse : Type := Except Unit (Option ConfStatus)

/-- The loop's break test:
`confirmationStatus === 'confirmed' || confirmationStatus === 'finalized'`. -/
def statusReachesConfirmed (r : PollResponse) : Bool :=
  match r with
  | Except.ok (some s) => s == ConfStatus.confirmed || s == ConfStatus.finalized
  | _ => false

/-- The polling loop from iteration `i` with `fuel` iterations left; returns
the final `confirmed` flag and the number of `getSignatureStatus` calls
made. -/
def confirmGo (responses : Nat → PollResponse) : Nat → Nat → Bool × Nat
  | 0, _ => (false, 0)
  | fuel + 1, i =>
    if statusReachesConfirmed (responses i) then (true, 1)
    else
      let rest := confirmGo responses fuel (i + 1)
      (rest.1, rest.2 + 1)

/-- `for (let i = 0; i < 60; i++) { ... }`: the 60-attempt confirmation
loop of `reclaimSOL`. -/
def confirmTransactionLoop (responses : Nat → PollResponse) : Bool × Nat :=
  confirmGo responses 60 0

/-- The final user-facing outcome: both branches of the `if (confirmed)`
call `setStatus` (never `setError`) and both messages embed the
signature. -/
inductive FinalReport where
  | success (signature : String)
  | pending (signature : String)
deriving DecidableEq

/-- The status report after the loop: success message when confirmed,
"Transaction submitted! ... Check Solscan" otherwise. -/
def finalStatus (confirmed : Bool) (signature : String) : FinalReport :=
  if confirmed then FinalReport.success signature else FinalReport.pending signature

/-- The transaction id carried by a final report. -/
def FinalReport.signatureOf : FinalReport → String
  | FinalReport.success s => s
  | FinalReport.pending s => s

/-! ## Address validation (`isValidSolanaAddress`, `page.tsx` lines 98-105)

`new PublicKey(string)` base58-decodes the string and throws unless the
result is exactly 32 bytes; `pubkey.toString()` re-encodes it canonically.
The base58 codec below models the `bs58` library used by `@solana/web3.js`:
leading `'1'` characters become leading zero bytes and the remainder is a
big-endian base-58 number. -/

/-- The bs58 alphabet. -/
def BASE58_ALPHABET : List Char :=
  "123456789ABCDEFGHJKLMNPQRSTUVWXYZabcdefghijkmnopqrstuvwxyz".toList

/-- Index of a character in a digit list, if present. -/
def b58Find : List Char → Char → Option Nat
  | [], _ => none
  | d :: ds, c => if d = c then some 0 else (b58Find ds c).map (· + 1)

/-- The value of one base58 digit character. -/
def b58DigitValue (c : Char) : Option Nat := b58Find BASE58_ALPHABET c

/-- Horner evaluation of a base58 digit string; `none` on any invalid
character. -/
def b58ValueAux : List Char → Nat → Option Nat
  | [], acc => some acc
  | c :: cs, acc =>
    match b58DigitValue c with
    | none => none
    | some d => b58ValueAux cs (acc * 58 + d)

/-- Minimal big-endian byte string of `n` (empty for `0`); the fuel bounds
the number of output bytes. -/
def natToBytesBE : Nat → Nat → List Nat
  | 0, _ => []
  | fuel + 1, n => if n = 0 then [] else natToBytesBE fuel (n / 256) ++ [n % 256]

/-- Minimal base58 digit string of `n` (empty for `0`); the fuel bounds the
number of output digits. -/
def natTo58Digits : Nat → Nat → List Char
  | 0, _ => []
  | fuel + 1, n =>
    if n = 0 then []
    else natTo58Digits fuel (n / 58) ++ [BASE58_ALPHABET.getD (n % 58) '1']

/-- Number of leading `'1'` characters. -/
def countLeadingOnes : List Char → Nat
  | [] => 0
  | c :: cs => if c = '1' then countLeadingOnes cs + 1 else 0

/-- Number of leading zero bytes. -/
def countLeadingZeroBytes : List Nat → Nat
  | [] => 0
  | b :: bs => if b = 0 then countLeadingZeroBytes bs + 1 else 0

/-- Big-endian value of a byte string. -/
def bytesToNatBE (bs : List Nat) : Nat :=
  bs.foldl (fun acc b => acc * 256 + b) 0

/-- bs58 decoding: every character must be a base58 digit; leading `'1'`s
yield zero bytes and the whole string is read as a base-58 number.  A
string of `k` characters decodes to at most `k` bytes, so `k` is enough
fuel. -/
def decodeBase58 (s : List Char) : Option (List Nat) :=
  match b58ValueAux s 0 with
  | none => none
  | some v =>
    some (List.replicate (countLeadingOnes s) 0 ++ natToBytesBE s.length v)

/-- bs58 encoding: leading zero bytes become `'1'`s and the remaining value
is written in base 58.  `L` bytes need at most `2 * L` digits
(`58^2 > 256`). -/
def encodeBase58 (bs : List Nat) : List Char :=
  List.replicate (countLeadingZeroBytes bs) '1' ++
    natTo58Digits (2 * bs.length) (bytesToNatBE bs)

/-- JavaScript `String.prototype.trim`: strip leading and trailing
whitespace. -/
def jsTrim (s : List Char) : List Char :=
  ((s.dropWhile Char.isWhitespace).reverse.dropWhile Char.isWhitespace).reverse

/-- `isValidSolanaAddress` from `page.tsx`: parse
`new PublicKey(address.trim())` (base58 decode to exactly 32 bytes) and
accept only when the canonical re-encoding `pubkey.toString()` has length
44. -/
def isValidSolanaAddress (address : String) : Bool :=
  match decodeBase58 (jsTrim address.toList) with
  | some bs => bs.length == 32 && (encodeBase58 bs).length == 44
  | none => false

/-! ## Concrete test fixtures used by the theorems below -/

/-- A selected account whose balance makes the floating-point fee
computation deviate from exact integer arithmetic. -/
def hugeAccount : EmptyAccount :=
  { address := "HugeAcct1", lamports := 8000000000000013,
    owner := TOKEN_PROGRAM_ID, executable := false, rentEpoch := 361,
    type := AccountType.token, programId := TOKEN_PROGRAM_ID }

/-- A token-program account with parsed amount `"0"` and `decimals` `0` —
the NFT-shaped record of the spec's classification scenario. -/
def nftShapedAccount : ParsedTokenAccount :=
  { pubkey := "NftShaped1", lamports := 2039, owner := TOKEN_PROGRAM_ID,
    executable := false, rentEpoch := 361,
    parsed := { tokenAmount := { amount := "0" }, decimals := 0 } }

/-- A scan in which both token-account queries return the same NFT-shaped
record (deterministic RPC) and the other queries return nothing. -/
def connNftShaped : Conn :=
  { tokenAccounts := Except.ok [nftShapedAccount],
    nftAccounts := Except.ok [nftShapedAccount],
    ataAccounts := Except.ok [],
    walletInfo := Except.ok none,
    allProgramAccounts := Except.ok [] }

/-- A scan whose first token query returns the same zero-amount record
twice. -/
def connDupToken : Conn :=
  { tokenAccounts := Except.ok [nftShapedAccount, nftShapedAccount],
    nftAccounts := Except.ok [nftShapedAccount, nftShapedAccount],
    ataAccounts := Except.ok [],
    walletInfo := Except.ok none,
    allProgramAccounts := Except.ok [] }

/-- An associated-token-program account holding a rent deposit. -/
def ataAccount : RawAccount :=
  { pubkey := "AtaAcct1", lamports := 2039,
    owner := ASSOCIATED_TOKEN_PROGRAM_ID, executable := false, rentEpoch := 361 }

/-- A scan in which strategy A/B's query throws while strategy C's query
would have returned a candidate. -/
def connFirstQueryFails : Conn :=
  { tokenAccounts := Except.error "rpc down",
    nftAccounts := Except.ok [],
    ataAccounts := Except.ok [ataAccount],
    walletInfo := Except.ok none,
    allProgramAccounts := Except.ok [] }

/-- A token-program-owned account reaching strategy D only. -/
def rawTokenOwnedAccount : RawAccount :=
  { pubkey := "Dacct1", lamports := 5000, owner := TOKEN_PROGRAM_ID,
    executable := false, rentEpoch := 361 }

/-- A scan in which only strategy D finds a candidate, owned by the token
program. -/
def connOnlyStrategyD : Conn :=
  { tokenAccounts := Except.ok [],
    nftAccounts := Except.ok [],
    ataAccounts := Except.ok [],
    walletInfo := Except.ok none,
    allProgramAccounts := Except.ok [rawTokenOwnedAccount] }

/-- An executable token-program account with parsed amount `"0"`. -/
def execAccount : ParsedTokenAccount :=
  { pubkey := "ExecAcct1", lamports := 2039, owner := TOKEN_PROGRAM_ID,
    executable := true, rentEpoch := 361,
    parsed := { tokenAmount := { amount := "0" }, decimals := 6 } }

/-- A scan whose token query returns an executable account. -/
def connExecutable : Conn :=
  { tokenAccounts := Except.ok [execAccount],
    nftAccounts := Except.ok [execAccount],
    ataAccounts := Except.ok [],
    walletInfo := Except.ok none,
    allProgramAccounts := Except.ok [] }

/-- First account of the spec's fee scenario (balance 2039). -/
def scenarioAccount2039 : EmptyAccount :=
  { address := "Sel2039", lamports := 2039, owner := TOKEN_PROGRAM_ID,
    executable := false, rentEpoch := 361,
    type := AccountType.associatedToken, programId := ASSOCIATED_TOKEN_PROGRAM_ID }

/-- Second account of the spec's fee scenario (balance 5000). -/
def scenarioAccount5000 : EmptyAccount :=
  { address := "Sel5000", lamports := 5000, owner := TOKEN_PROGRAM_ID,
    executable := false, rentEpoch := 361,
    type := AccountType.token, programId := TOKEN_PROGRAM_ID }

/-! ## Helper lemmas -/

lemma two_pow_log2Fuel_le (fuel : Nat) : ∀ n : Nat, 1 ≤ n → 2 ^ log2Fuel fuel n ≤ n := by
  induction fuel with
  | zero => intro n hn; simpa [log2Fuel] using hn
  | succ f ih =>
    intro n hn
    by_cases h : n < 2
    · simp [log2Fuel, h]; omega
    · have hrec := ih (n / 2) (by omega)
      simp only [log2Fuel, h, if_false]
      calc 2 ^ (log2Fuel f (n / 2) + 1) = 2 ^ log2Fuel f (n / 2) * 2 := by ring
        _ ≤ n / 2 * 2 := Nat.mul_le_mul_right 2 hrec
        _ ≤ n := by omega

lemma roundHalfEven_mul_le (a d : Nat) : roundHalfEven a d * d ≤ a + d := by
  have hq : a / d * d ≤ a := Nat.div_mul_le_self a d
  unfold roundHalfEven
  dsimp only
  split_ifs <;> (try simp only [Nat.succ_mul]) <;> omega

lemma feeLamports_le (n : Nat) : feeLamports n ≤ n := by
  by_cases hn : n = 0
  · subst hn; rfl
  · unfold feeLamports jsMul015Scaled
    simp only [hn, if_false]
    set a := n * float015Num with ha
    set g := log2Fuel 128 a - 52 with hg
    have ha1 : 1 ≤ a := by
      have h1 : 1 ≤ n := Nat.one_le_iff_ne_zero.mpr hn
      have h2 : (1 : Nat) ≤ float015Num := by norm_num [float015Num]
      calc (1 : Nat) = 1 * 1 := by norm_num
        _ ≤ n * float015Num := Nat.mul_le_mul h1 h2
    have hpow : 2 ^ g ≤ a := by
      calc 2 ^ g ≤ 2 ^ log2Fuel 128 a :=
            Nat.pow_le_pow_right (by norm_num) (by omega)
        _ ≤ a := two_pow_log2Fuel_le 128 a ha1
    have h2a : roundHalfEven a (2 ^ g) * 2 ^ g ≤ 2 * a := by
      have := roundHalfEven_mul_le a (2 ^ g)
      omega
    have hM : 2 * a ≤ n * 2 ^ 55 := by
      have hM2 : 2 * float015Num ≤ 2 ^ 55 := by norm_num [float015Num]
      calc 2 * a = n * (2 * float015Num) := by rw [ha]; ring
        _ ≤ n * 2 ^ 55 := Nat.mul_le_mul_left n hM2
    calc roundHalfEven a (2 ^ g) * 2 ^ g / 2 ^ 55
        ≤ n * 2 ^ 55 / 2 ^ 55 := Nat.div_le_div_right (by omega)
      _ = n := Nat.mul_div_cancel n (by positivity)

/-! ## Claims about the fee computation -/

/-- C1 (amended): the fee is computed in double-precision floating point as
`Math.floor(totalLamports * 0.15)`.  It matches the exact
`floor(totalLamports * 15 / 100)` on the spec's scenario (7039 → 1055), the
fee never exceeds the total, and `feeLamports + netLamports = totalLamports`
holds exactly for every non-negative integer total, with
`netLamports = totalLamports - feeLamports`. -/
theorem fee_plus_net_eq_total :
    (∀ totalLamports : Nat,
        feeLamports totalLamports ≤ totalLamports ∧
        feeLamports totalLamports + netLamports totalLamports = totalLamports) ∧
    feeLamports 7039 = 1055 ∧ feeLamportsSpec 7039 = 1055 := by
  refine ⟨fun n => ⟨feeLamports_le n, ?_⟩, by decide, by decide⟩
  have := feeLamports_le n
  unfold netLamports
  omega

set_option maxRecDepth 100000 in
/-- C1 (counterexample): at the selection total `8000000000000013` (a valid
integer lamport balance below `2^53`) the floating-point computation
`Math.floor(totalLamports * 0.15)` yields `1200000000000002`, while exact
integer arithmetic `floor(totalLamports * 15 / 100)` yields
`1200000000000001`: the builder's fee is not the exact integer fee. -/
theorem fee_not_exact_at_huge_total :
    totalLamportsOf [hugeAccount] = 8000000000000013 ∧
    feeLamports 8000000000000013 = 1200000000000002 ∧
    feeLamportsSpec 8000000000000013 = 1200000000000001 ∧
    feeLamports (totalLamportsOf [hugeAccount]) ≠
      feeLamportsSpec (totalLamportsOf [hugeAccount]) := by
  refine ⟨rfl, by decide, by decide, by decide⟩

/-- C9 (confirmed): for every fee below `2^53`, the instruction data built
from the two `writeUInt32LE` calls — low word `feeLamports >>> 0`, high word
`Math.floor(feeLamports / 2^32)` — is the system-transfer tag `[2,0,0,0]`
followed by the exact 64-bit little-endian encoding of the fee. -/
theorem feeTransferData_eq_le64 (fee : Nat) (_hfee : fee < 2 ^ 53) :
    feeTransferData fee = [2, 0, 0, 0] ++ le64 fee := by
  unfold feeTransferData feeBuffer writeUInt32LE jsToUint32 le64
  norm_num [List.replicate, Nat.div_div_eq_div_mul]
  omega

/-- C9 (witness): the identity instantiated at the scenario fee 1055. -/
theorem feeTransferData_eq_le64_witness :
    1055 < 2 ^ 53 ∧ feeTransferData 1055 = [2, 0, 0, 0] ++ le64 1055 :=
  ⟨by norm_num, feeTransferData_eq_le64 1055 (by norm_num)⟩

/-! ## Claims about the transaction builder -/

lemma foldl_push_eq_map {α β : Type} (f : α → β) :
    ∀ (l : List α) (acc : List β),
      l.foldl (fun acc1 a => acc1 ++ [f a]) acc = acc ++ l.map f := by
  intro l
  induction l with
  | nil => intro acc; simp
  | cons a t ih => intro acc; simp [ih]

/-- The selected accounts of `reclaimSOL`:
`accounts.filter((a) => selectedAccounts.has(a.address.toString()))`. -/
def selectedOf (accounts : List EmptyAccount) (selectedAccounts : List String) :
    List EmptyAccount :=
  accounts.filter (fun a => selectedAccounts.contains a.address)

/-- C4 (confirmed): for every non-empty selection the built sequence is one
close-account instruction per selected account, in presentation order, each
sending the freed balance to the owner with the owner as authority, followed
by exactly one fee transfer from owner to `feeRecipient` over the native
system program for `feeLamports` of the selected total. -/
theorem buildReclaimInstructions_shape (accounts : List EmptyAccount)
    (selectedAccounts : List String) (wallet feeRecipient : String)
    (hsel : selectedAccounts ≠ []) :
    buildReclaimInstructions accounts selectedAccounts wallet feeRecipient =
      Except.ok
        ((selectedOf accounts selectedAccounts).map
            (fun a => Instruction.closeAccount a.address wallet wallet) ++
          [feeTransferInstruction wallet feeRecipient
            (feeLamports (totalLamportsOf (selectedOf accounts selectedAccounts)))]) := by
  unfold buildReclaimInstructions selectedOf
  rw [if_neg (by simpa using hsel)]
  dsimp only
  rw [foldl_push_eq_map]
  simp

/-- C4 (witness): the spec's two-account scenario (balances 2039 and 5000,
fee 1055). -/
theorem buildReclaimInstructions_shape_witness :
    buildReclaimInstructions [scenarioAccount2039, scenarioAccount5000]
        ["Sel2039", "Sel5000"] "WalletW" "FeeRecipF" =
      Except.ok
        [Instruction.closeAccount "Sel2039" "WalletW" "WalletW",
         Instruction.closeAccount "Sel5000" "WalletW" "WalletW",
         feeTransferInstruction "WalletW" "FeeRecipF" 1055] := by
  have h := buildReclaimInstructions_shape [scenarioAccount2039, scenarioAccount5000]
    ["Sel2039", "Sel5000"] "WalletW" "FeeRecipF" (by decide)
  rw [h]
  exact congrArg Except.ok (by decide)

/-! ## Claims about the confirmation loop -/

lemma confirmGo_count_le (responses : Nat → PollResponse) :
    ∀ (fuel i : Nat), (confirmGo responses fuel i).2 ≤ fuel := by
  intro fuel
  induction fuel with
  | zero => intro i; simp [confirmGo]
  | succ f ih =>
    intro i
    unfold confirmGo
    by_cases h : statusReachesConfirmed (responses i) = true
    · simp [h]
    · rw [if_neg h]
      have := ih (i + 1)
      dsimp only
      omega

lemma confirmGo_not_found (responses : Nat → PollResponse) :
    ∀ (fuel i : Nat),
      (∀ j, j < fuel → statusReachesConfirmed (responses (i + j)) = false) →
      confirmGo responses fuel i = (false, fuel) := by
  intro fuel
  induction fuel with
  | zero => intro i _; rfl
  | succ f ih =>
    intro i h
    have h0 : statusReachesConfirmed (responses i) = false := by
      have := h 0 (Nat.succ_pos f)
      simpa using this
    have hrest := ih (i + 1) (fun j hj => by
      have e : i + 1 + j = i + (j + 1) := by omega
      rw [e]
      exact h (j + 1) (by omega))
    unfold confirmGo
    rw [if_neg (by simp [h0]), hrest]

lemma confirmGo_found (responses : Nat → PollResponse) :
    ∀ (fuel i k : Nat), k < fuel →
      (∀ j, j < k → statusReachesConfirmed (responses (i + j)) = false) →
      statusReachesConfirmed (responses (i + k)) = true →
      confirmGo responses fuel i = (true, k + 1) := by
  intro fuel
  induction fuel with
  | zero => intro i k hk _ _; exact absurd hk (Nat.not_lt_zero k)
  | succ f ih =>
    intro i k hk hbefore hhit
    cases k with
    | zero =>
      have h0 : statusReachesConfirmed (responses i) = true := by simpa using hhit
      unfold confirmGo
      rw [if_pos h0]
    | succ k =>
      have h0 : statusReachesConfirmed (responses i) = false := by
        have := hbefore 0 (Nat.succ_pos k)
        simpa using this
      have hrest := ih (i + 1) k (by omega)
        (fun j hj => by
          have e : i + 1 + j = i + (j + 1) := by omega
          rw [e]
          exact hbefore (j + 1) (by omega))
        (by
          have e : i + 1 + k = i + (k + 1) := by omega
          rw [e]
          exact hhit)
      unfold confirmGo
      rw [if_neg (by simp [h0]), hrest]

/-- C6 (confirmed): the loop polls `getSignatureStatus` at most 60 times; it
stops with `confirmed` at the first poll whose status is at least
`confirmed` (i.e. `confirmed` or `finalized`); and when all 60 polls fail to
confirm, the outcome is the timed-out state reported via the pending status
message (not an error), which still carries the transaction signature. -/
theorem confirmLoop_bounded_early_timeout (responses : Nat → PollResponse)
    (signature : String) :
    (confirmTransactionLoop responses).2 ≤ 60 ∧
    (∀ k, k < 60 →
      (∀ j, j < k → statusReachesConfirmed (responses j) = false) →
      statusReachesConfirmed (responses k) = true →
      confirmTransactionLoop responses = (true, k + 1)) ∧
    ((∀ j, j < 60 → statusReachesConfirmed (responses j) = false) →
      confirmTransactionLoop responses = (false, 60) ∧
      finalStatus (confirmTransactionLoop responses).1 signature =
        FinalReport.pending signature ∧
      (finalStatus (confirmTransactionLoop responses).1 signature).signatureOf =
        signature) := by
  refine ⟨confirmGo_count_le responses 60 0, ?_, ?_⟩
  · intro k hk hbefore hhit
    exact confirmGo_found responses 60 0 k hk
      (fun j hj => by simpa using hbefore j hj) (by simpa using hhit)
  · intro hnone
    have h : confirmTransactionLoop responses = (false, 60) :=
      confirmGo_not_found responses 60 0 (fun j hj => by simpa using hnone j hj)
    rw [h]
    exact ⟨rfl, rfl, rfl⟩

/-- C6 (witness): sixty polls that always report a `null` status end in the
pending report that carries the signature. -/
theorem confirmLoop_witness :
    confirmTransactionLoop (fun _ => Except.ok none) = (false, 60) ∧
    finalStatus (confirmTransactionLoop (fun _ => Except.ok none)).1 "txsig" =
      FinalReport.pending "txsig" := by
  have h := confirmLoop_bounded_early_timeout (fun _ => Except.ok none) "txsig"
  have h2 := h.2.2 (fun j _ => rfl)
  exact ⟨h2.1, h2.2.1⟩

/-! ## Machinery for the discovery/aggregation pipeline -/

lemma isAlreadyIncluded_eq_true_iff (acc : List EmptyAccount) (pk : String) :
    isAlreadyIncluded acc pk = true ↔ pk ∈ acc.map EmptyAccount.address := by
  constructor
  · intro h
    rcases List.any_eq_true.mp h with ⟨x, hx, he⟩
    exact List.mem_map.mpr ⟨x, hx, by simpa using he⟩
  · intro h
    rcases List.mem_map.mp h with ⟨x, hx, he⟩
    exact List.any_eq_true.mpr ⟨x, hx, by simp [he]⟩

/-- A loop body that either leaves the accumulator unchanged or pushes one
entry at its end. -/
def PushStep {α : Type} (g : List EmptyAccount → α → List EmptyAccount) : Prop :=
  ∀ acc a, g acc a = acc ∨ ∃ e, g acc a = acc ++ [e]

/-- A loop body that pushes only entries satisfying `P` whose address is not
already present. -/
def GuardedStep {α : Type} (g : List EmptyAccount → α → List EmptyAccount)
    (P : EmptyAccount → Prop) : Prop :=
  ∀ acc a, g acc a = acc ∨
    ∃ e, g acc a = acc ++ [e] ∧ P e ∧ e.address ∉ acc.map EmptyAccount.address

lemma GuardedStep.pushStep {α : Type} {g : List EmptyAccount → α → List EmptyAccount}
    {P : EmptyAccount → Prop} (hg : GuardedStep g P) : PushStep g := by
  intro acc a
  rcases hg acc a with h | ⟨e, h, _, _⟩
  · exact Or.inl h
  · exact Or.inr ⟨e, h⟩

lemma PushStep.mem_foldl {α : Type} {g : List EmptyAccount → α → List EmptyAccount}
    (hg : PushStep g) {x : EmptyAccount} :
    ∀ (l : List α) (acc : List EmptyAccount), x ∈ acc → x ∈ l.foldl g acc := by
  intro l
  induction l with
  | nil => intro acc hx; simpa using hx
  | cons a t ih =>
    intro acc hx
    rw [List.foldl_cons]
    rcases hg acc a with h | ⟨e, h⟩
    · rw [h]; exact ih acc hx
    · rw [h]; exact ih _ (by simp [hx])

lemma GuardedStep.mem_foldl_or {α : Type} {g : List EmptyAccount → α → List EmptyAccount}
    {P : EmptyAccount → Prop} (hg : GuardedStep g P) :
    ∀ (l : List α) (acc : List EmptyAccount) (x : EmptyAccount),
      x ∈ l.foldl g acc → x ∈ acc ∨ P x := by
  intro l
  induction l with
  | nil => intro acc x hx; exact Or.inl (by simpa using hx)
  | cons a t ih =>
    intro acc x hx
    rw [List.foldl_cons] at hx
    rcases hg acc a with h | ⟨e, h, hP, _⟩
    · rw [h] at hx; exact ih acc x hx
    · rw [h] at hx
      rcases ih _ x hx with hmem | hPx
      · rcases List.mem_append.mp hmem with h1 | h2
        · exact Or.inl h1
        · rw [show x = e from by simpa using h2]
          exact Or.inr hP
      · exact Or.inr hPx

lemma GuardedStep.nodup_foldl {α : Type} {g : List EmptyAccount → α → List EmptyAccount}
    {P : EmptyAccount → Prop} (hg : GuardedStep g P) :
    ∀ (l : List α) (acc : List EmptyAccount),
      (acc.map EmptyAccount.address).Nodup →
      ((l.foldl g acc).map EmptyAccount.address).Nodup := by
  intro l
  induction l with
  | nil => intro acc h; simpa using h
  | cons a t ih =>
    intro acc h
    rw [List.foldl_cons]
    rcases hg acc a with heq | ⟨e, heq, _, hnotin⟩
    · rw [heq]; exact ih acc h
    · rw [heq]
      apply ih
      rw [List.map_append]
      exact List.Nodup.append h (List.nodup_singleton _)
        (List.disjoint_singleton.mpr hnotin)

lemma nftStep_guarded : GuardedStep nftStep (fun e => e.type = AccountType.nft) := by
  intro acc a
  unfold nftStep
  split_ifs with h1 h2
  · exact Or.inl rfl
  · refine Or.inr ⟨nftEntry a, rfl, rfl, fun hmem => ?_⟩
    exact h2 ((isAlreadyIncluded_eq_true_iff acc a.pubkey).mpr hmem)
  · exact Or.inl rfl

lemma ataStep_guarded : GuardedStep ataStep (fun e => e.type = AccountType.associatedToken) := by
  intro acc a
  unfold ataStep
  split_ifs with h1 h2
  · exact Or.inl rfl
  · refine Or.inr ⟨ataEntry a, rfl, rfl, fun hmem => ?_⟩
    exact h2 ((isAlreadyIncluded_eq_true_iff acc a.pubkey).mpr hmem)
  · exact Or.inl rfl

lemma allProgramsStep_guarded :
    GuardedStep allProgramsStep (fun e => e.type = AccountType.unknown) := by
  intro acc a
  unfold allProgramsStep
  split_ifs with h1
  · refine Or.inr ⟨unknownEntry a, rfl, rfl, fun hmem => ?_⟩
    have hinc : isAlreadyIncluded acc a.pubkey = false := by
      have h1c : (!isAlreadyIncluded acc a.pubkey) = true ∧ 0 < a.lamports := by
        simpa using h1
      simpa using h1c.1
    rw [(isAlreadyIncluded_eq_true_iff acc a.pubkey).mpr hmem] at hinc
    exact Bool.noConfusion hinc
  · exact Or.inl rfl

/-- Strategy A appends exactly the `token` entries of the zero-amount
accounts, in list order, with no dedup check. -/
lemma foldl_tokenStep_eq (t : List ParsedTokenAccount) :
    ∀ acc : List EmptyAccount,
      t.foldl tokenStep acc =
        acc ++ (t.filter (fun a => a.parsed.tokenAmount.amount == "0")).map tokenEntry := by
  induction t with
  | nil => intro acc; simp
  | cons a t ih =>
    intro acc
    rw [List.foldl_cons]
    by_cases h : (a.parsed.tokenAmount.amount == "0") = true
    · rw [show tokenStep acc a = acc ++ [tokenEntry a] from by unfold tokenStep; rw [if_pos h]]
      rw [ih]
      simp [List.filter_cons, h]
    · rw [show tokenStep acc a = acc from by unfold tokenStep; rw [if_neg h]]
      rw [ih]
      simp [List.filter_cons, h]

/-- Strategy B is a no-op whenever every zero-amount account of its input
list is already aggregated. -/
lemma foldl_nftStep_of_included (t : List ParsedTokenAccount) :
    ∀ acc : List EmptyAccount,
      (∀ a ∈ t, a.parsed.tokenAmount.amount = "0" →
        a.pubkey ∈ acc.map EmptyAccount.address) →
      t.foldl nftStep acc = acc := by
  induction t with
  | nil => intro acc _; rfl
  | cons a t ih =>
    intro acc h
    rw [List.foldl_cons]
    have hstep : nftStep acc a = acc := by
      unfold nftStep
      split_ifs with h1 h2
      · rfl
      · exfalso
        have hamt : a.parsed.tokenAmount.amount = "0" := by
          have h1c : (a.parsed.tokenAmount.amount == "0") = true ∧
              (a.parsed.decimals == 0) = true := by simpa using h1
          simpa using h1c.1
        exact h2 ((isAlreadyIncluded_eq_true_iff acc a.pubkey).mpr
          (h a (by simp) hamt))
      · rfl
    rw [hstep]
    exact ih acc (fun b hb hamt => h b (by simp [hb]) hamt)

lemma tokenEntry_mem_strategyA {t : List ParsedTokenAccount}
    {acct : ParsedTokenAccount} (hmem : acct ∈ t)
    (hamt : acct.parsed.tokenAmount.amount = "0") :
    tokenEntry acct ∈ t.foldl tokenStep [] := by
  rw [foldl_tokenStep_eq t []]
  simp only [List.nil_append]
  exact List.mem_map.mpr ⟨acct, List.mem_filter.mpr ⟨hmem, by simp [hamt]⟩, rfl⟩

lemma strategyA_addresses (t : List ParsedTokenAccount) :
    (t.foldl tokenStep []).map EmptyAccount.address =
      (t.filter (fun a => a.parsed.tokenAmount.amount == "0")).map
        ParsedTokenAccount.pubkey := by
  rw [foldl_tokenStep_eq t []]
  simp [List.map_map]
  intros
  rfl

lemma mem_strategyA_type {t : List ParsedTokenAccount} {e : EmptyAccount}
    (he : e ∈ t.foldl tokenStep []) : e.type = AccountType.token := by
  rw [foldl_tokenStep_eq t []] at he
  simp only [List.nil_append] at he
  rcases List.mem_map.mp he with ⟨a, _, rfl⟩
  rfl

/-! ## Claims about classification and aggregation -/

/-- C2 (amended): a token-program account whose parsed amount is `"0"` and
whose decimals are `0` is classified `token`, not `nft`: strategy A records
every zero-amount account as `token` first, and the `nft` pass only inserts
addresses not already present, so when both token-account queries return the
same records no account in the scan's output is ever classified `nft`. -/
theorem nftShaped_classified_token (t : List ParsedTokenAccount)
    (atas : List RawAccount) (w : Option AccountInfoRec) (ps : List RawAccount)
    (acct : ParsedTokenAccount) (hmem : acct ∈ t)
    (hamt : acct.parsed.tokenAmount.amount = "0")
    (_hdec : acct.parsed.decimals = 0) :
    tokenEntry acct ∈ detectCore t t atas w ps ∧
    (tokenEntry acct).type = AccountType.token ∧
    ∀ e ∈ detectCore t t atas w ps, e.type ≠ AccountType.nft := by
  have hA := foldl_tokenStep_eq t []
  have hincl : ∀ a ∈ t, a.parsed.tokenAmount.amount = "0" →
      a.pubkey ∈ (t.foldl tokenStep []).map EmptyAccount.address := by
    intro a ha hamt'
    rw [strategyA_addresses t]
    exact List.mem_map.mpr ⟨a, List.mem_filter.mpr ⟨ha, by simp [hamt']⟩, rfl⟩
  have hB : t.foldl nftStep (t.foldl tokenStep []) = t.foldl tokenStep [] :=
    foldl_nftStep_of_included t _ hincl
  have hcore : detectCore t t atas w ps =
      ps.foldl allProgramsStep (atas.foldl ataStep (t.foldl tokenStep [])) := by
    unfold detectCore
    dsimp only
    rw [hB]
  refine ⟨?_, rfl, ?_⟩
  · rw [hcore]
    exact allProgramsStep_guarded.pushStep.mem_foldl ps _
      (ataStep_guarded.pushStep.mem_foldl atas _
        (tokenEntry_mem_strategyA hmem hamt))
  · intro e he
    rw [hcore] at he
    rcases allProgramsStep_guarded.mem_foldl_or ps _ e he with he2 | hunk
    · rcases ataStep_guarded.mem_foldl_or atas _ e he2 with he3 | hata
      · rw [mem_strategyA_type he3]
        decide
      · rw [hata]
        decide
    · rw [hunk]
      decide

/-- C2 (witness): the amended claim at the concrete NFT-shaped account. -/
theorem nftShaped_classified_token_witness :
    tokenEntry nftShapedAccount ∈
      detectCore [nftShapedAccount] [nftShapedAccount] [] none [] ∧
    (tokenEntry nftShapedAccount).type = AccountType.token := by
  have h := nftShaped_classified_token [nftShapedAccount] [] none []
    nftShapedAccount (by simp) rfl rfl
  exact ⟨h.1, h.2.1⟩

set_option maxRecDepth 4000 in
/-- C2 (counterexample): with deterministic queries, the scan classifies the
token-program account with amount `"0"` and decimals `0` as `token`, not
`nft` — the spec's classification scenario fails on the code. -/
theorem nftShaped_cex :
    detectReclaimableAccounts connNftShaped =
      Except.ok [tokenEntry nftShapedAccount] ∧
    (tokenEntry nftShapedAccount).type = AccountType.token ∧
    (tokenEntry nftShapedAccount).type ≠ AccountType.nft ∧
    nftShapedAccount.parsed.tokenAmount.amount = "0" ∧
    nftShapedAccount.parsed.decimals = 0 ∧
    nftShapedAccount.owner = TOKEN_PROGRAM_ID := by
  exact ⟨rfl, rfl, by decide, rfl, rfl, rfl⟩

/-- C3 (amended): provided the token-account query returns records with
pairwise-distinct addresses (strategy A pushes without any dedup check, so
a repeated address in its own candidate list survives), the aggregated
output contains no two entries with the same address: strategies B, C and D
insert an entry only when its address is not already aggregated. -/
theorem detect_nodup_of_tokenlist_nodup (c : Conn)
    (t : List ParsedTokenAccount) (res : List EmptyAccount)
    (ht : c.tokenAccounts = Except.ok t)
    (hnd : (t.map ParsedTokenAccount.pubkey).Nodup)
    (hres : detectReclaimableAccounts c = Except.ok res) :
    (res.map EmptyAccount.address).Nodup := by
  rcases c with ⟨tq, nq, aq, wq, pq⟩
  simp only at ht
  subst ht
  rcases nq with e | n
  · simp [detectReclaimableAccounts, Bind.bind, Except.bind] at hres
  rcases aq with e | atas
  · simp [detectReclaimableAccounts, Bind.bind, Except.bind] at hres
  rcases wq with e | w
  · simp [detectReclaimableAccounts, Bind.bind, Except.bind] at hres
  rcases pq with e | ps
  · simp [detectReclaimableAccounts, Bind.bind, Except.bind, Functor.map,
      Except.map] at hres
  have hres2 : detectCore t n atas w ps = res := by
    simpa [detectReclaimableAccounts, Bind.bind, Except.bind, Functor.map,
      Except.map, Pure.pure, Except.pure] using hres
  subst hres2
  unfold detectCore
  apply allProgramsStep_guarded.nodup_foldl
  apply ataStep_guarded.nodup_foldl
  apply nftStep_guarded.nodup_foldl
  rw [strategyA_addresses t]
  exact List.Nodup.sublist
    (List.Sublist.map ParsedTokenAccount.pubkey (List.filter_sublist t)) hnd

/-- C3 (witness): the dedup theorem at a concrete scan whose token query
returns one record. -/
theorem detect_nodup_witness :
    (([tokenEntry nftShapedAccount]).map EmptyAccount.address).Nodup :=
  detect_nodup_of_tokenlist_nodup connNftShaped [nftShapedAccount]
    [tokenEntry nftShapedAccount] rfl (by decide) rfl

set_option maxRecDepth 4000 in
/-- C3 (counterexample): when the token query's candidate list itself
repeats an address, the aggregated output contains that address twice —
strategy A pushes without checking `isAlreadyIncluded`. -/
theorem detect_dup_cex :
    detectReclaimableAccounts connDupToken =
      Except.ok [tokenEntry nftShapedAccount, tokenEntry nftShapedAccount] ∧
    ¬ (([tokenEntry nftShapedAccount, tokenEntry nftShapedAccount].map
        EmptyAccount.address).Nodup) := by
  exact ⟨rfl, by decide⟩

/-- C5 (amended): a failure in any strategy aborts the whole scan: the body
of `detectReclaimableAccounts` is a single try/catch that re-throws, so the
scan returns a result exactly when all five ledger queries succeed, and the
first failure is surfaced as the thrown error with no partial results and no
warning. -/
theorem detect_isOk_iff_all_queries_ok (c : Conn) :
    (detectReclaimableAccounts c).isOk =
      (c.tokenAccounts.isOk && c.nftAccounts.isOk && c.ataAccounts.isOk &&
        c.walletInfo.isOk && c.allProgramAccounts.isOk) := by
  rcases c with ⟨tq, nq, aq, wq, pq⟩
  rcases tq with e | t <;> rcases nq with e | n <;> rcases aq with e | atas <;>
    rcases wq with e | w <;> rcases pq with e | ps <;> rfl

set_option maxRecDepth 4000 in
/-- C5 (counterexample): when the first token query throws, the scan aborts
with that error even though the associated-token strategy had a candidate —
no partial results are returned. -/
theorem detect_abort_cex :
    detectReclaimableAccounts connFirstQueryFails = Except.error "rpc down" ∧
    connFirstQueryFails.ataAccounts = Except.ok [ataAccount] ∧
    ataAccount.lamports > 0 := by
  exact ⟨rfl, rfl, by decide⟩

set_option maxRecDepth 4000 in
/-- C7 (code bug): strategy D computes the classification from the owning
program (`strategyDComputedType`, which maps the token program to `token`)
but then pushes the literal `"unknown"`, so a token-program-owned account
found only by the catch-all is stored as `unknown`, contradicting the
computed value a few lines above. -/
theorem strategyD_stores_unknown :
    detectReclaimableAccounts connOnlyStrategyD =
      Except.ok [unknownEntry rawTokenOwnedAccount] ∧
    (unknownEntry rawTokenOwnedAccount).type = AccountType.unknown ∧
    rawTokenOwnedAccount.owner = TOKEN_PROGRAM_ID ∧
    strategyDComputedType rawTokenOwnedAccount.owner = AccountType.token ∧
    (unknownEntry rawTokenOwnedAccount).type ≠
      strategyDComputedType rawTokenOwnedAccount.owner := by
  exact ⟨rfl, rfl, rfl, by decide, by decide⟩

/-- C8 (amended): no discovery strategy excludes executable accounts: an
executable record meeting strategy A's zero-amount criterion is still
classified and included in the scan's output, its `isExecutable` flag merely
copied through. -/
theorem executable_not_excluded (t n : List ParsedTokenAccount)
    (atas : List RawAccount) (w : Option AccountInfoRec) (ps : List RawAccount)
    (acct : ParsedTokenAccount) (hmem : acct ∈ t)
    (hamt : acct.parsed.tokenAmount.amount = "0")
    (hexec : acct.executable = true) :
    tokenEntry acct ∈ detectCore t n atas w ps ∧
    (tokenEntry acct).executable = true ∧
    (tokenEntry acct).type = AccountType.token := by
  refine ⟨?_, ?_, rfl⟩
  · unfold detectCore
    exact allProgramsStep_guarded.pushStep.mem_foldl ps _
      (ataStep_guarded.pushStep.mem_foldl atas _
        (nftStep_guarded.pushStep.mem_foldl n _
          (tokenEntry_mem_strategyA hmem hamt)))
  · simpa [tokenEntry] using hexec

/-- C8 (witness): the inclusion at the concrete executable account. -/
theorem executable_not_excluded_witness :
    tokenEntry execAccount ∈ detectCore [execAccount] [execAccount] [] none [] ∧
    (tokenEntry execAccount).executable = true := by
  have h := executable_not_excluded [execAccount] [execAccount] [] none []
    execAccount (by simp) rfl rfl
  exact ⟨h.1, h.2.1⟩

set_option maxRecDepth 4000 in
/-- C8 (counterexample): a scan whose token query returns an executable
zero-amount account classifies it `token` and includes it in the output. -/
theorem executable_included_cex :
    detectReclaimableAccounts connExecutable = Except.ok [tokenEntry execAccount] ∧
    (tokenEntry execAccount).executable = true ∧
    (tokenEntry execAccount).type = AccountType.token := by
  exact ⟨rfl, rfl, rfl⟩

/-! ## Claim about address validation -/

set_option maxRecDepth 20000 in
/-- C10 (confirmed): the validator accepts a string exactly when it parses
as a 32-byte public key and its canonical base58 form has exactly 44
characters; consequently a well-formed 32-byte key whose base58 encoding is
shorter — such as the all-zero key, whose 32 leading zero bytes encode to
the 32-character string of `'1'`s (the system program address) — is
rejected before any query. -/
theorem isValidSolanaAddress_iff_44 :
    (∀ address : String,
        isValidSolanaAddress address = true ↔
          ∃ bs, decodeBase58 (jsTrim address.toList) = some bs ∧
            bs.length = 32 ∧ (encodeBase58 bs).length = 44) ∧
    decodeBase58 (jsTrim SYSTEM_PROGRAM_ID.toList) = some (List.replicate 32 0) ∧
    countLeadingZeroBytes (List.replicate 32 0) = 32 ∧
    (encodeBase58 (List.replicate 32 0)).length = 32 ∧
    isValidSolanaAddress SYSTEM_PROGRAM_ID = false := by
  refine ⟨?_, by decide, by decide, by decide, by decide⟩
  intro address
  unfold isValidSolanaAddress
  cases h : decodeBase58 (jsTrim address.toList) with
  | none => simp
  | some bs => simp [Bool.and_eq_true]

end Reclaim
